import Mathlib

/-!
Verification of the sjson-cpp SJSON scanner (`src/includes/sjson/parser.h`).

The C++ `Parser` class is shallowly embedded below.  The input buffer is a
`List Char` (one `Char` per byte); the mutable parser state is threaded
explicitly.  Machine integers are modelled as `Nat` with explicit wraparound
(`SZ` for `size_t`, `U32` for `uint32_t`) at the places where the C++ code
performs arithmetic that could wrap.  Loops in the C++ code are embedded as
structurally recursive functions on an explicit fuel argument; every public
entry point supplies fuel that dominates the loop's true iteration count
(each loop iteration advances the cursor offset by at least one, and the
offset never exceeds the buffer length), and the out-of-fuel fallback is
chosen to coincide with the loop's end-of-input behaviour so the fallback is
never observable.

`parser_state.h`, `parser_error.h` and `string_view.h` are include
dependencies of `parser.h` that are not part of the provided sources; the
small value types they declare (`ParserState`, `ParserError`, `StringView`)
are modelled from the specification and are marked as such.
-/

namespace sjson

/-- Modulus of the C++ 64-bit `size_t` type. -/
def SZ : Nat := 2 ^ 64

/-- Modulus of the C++ `uint32_t` type. -/
def U32 : Nat := 2 ^ 32

/-- Wrapping `size_t` subtraction `a - b` over `Nat` representatives. -/
def szSub (a b : Nat) : Nat := (a % SZ + (SZ - b % SZ)) % SZ

/-- `std::isspace` in the C locale restricted to the byte values the scanner
can see: space, horizontal tab, line feed, vertical tab, form feed and
carriage return. -/
def isspace (c : Char) : Bool :=
  c = ' ' || c = Char.ofNat 9 || c = Char.ofNat 10 || c = Char.ofNat 11 ||
  c = Char.ofNat 12 || c = Char.ofNat 13

/-- `std::isdigit` in the C locale. -/
def isdigit (c : Char) : Bool := '0' ≤ c && c ≤ '9'

/-- Modelled from the spec: the closed set of syntax-error kinds of
`parser_error.h` (spec section 7), plus the `None` default. -/
inductive ErrorCode where
  | None
  | InputTruncated
  | OpeningBraceExpected
  | ClosingBraceExpected
  | OpeningBracketExpected
  | ClosingBracketExpected
  | EqualSignExpected
  | CommaExpected
  | CommentBeginsIncorrectly
  | CannotUseQuotationMarkInUnquotedString
  | KeyExpected
  | IncorrectKey
  | QuotationMarkExpected
  | TrueOrFalseExpected
  | NumberExpected
  | NumberIsTooLong
  | NumberCouldNotBeConverted
  | InvalidNumber
  | UnexpectedContentAtEnd
deriving DecidableEq

/-- Modelled from the spec: `ParserError` of `parser_error.h` — an error kind
together with the line/column recorded when it was set (spec section 3:
`ErrorInfo = {kind, line, column}`, defaulting to no error). -/
structure ParserError where
  error : ErrorCode
  line : Nat
  column : Nat
deriving DecidableEq

/-- Modelled from the spec: `ParserState` of `parser_state.h` — the cursor
value type (spec section 3): byte offset, 1-based line and column, the symbol
under the cursor (`input[offset]`, or a NUL sentinel at or past end of
input), and the embedded pending error. -/
structure ParserState where
  offset : Nat
  line : Nat
  column : Nat
  symbol : Char
  error : ParserError
deriving DecidableEq

/-- Modelled from the spec: the `ParserState` constructor — cursor at offset
0, line 1, column 1, symbol primed from the first input byte (NUL sentinel
for an empty input), no pending error. -/
def ParserState.init (input : List Char) : ParserState :=
  { offset := 0, line := 1, column := 1,
    symbol := input.getD 0 (Char.ofNat 0),
    error := ⟨ErrorCode.None, 0, 0⟩ }

/-- Modelled from the spec: `StringView` of `string_view.h` — a non-owning
view into the input buffer, either the null ("no value") sentinel produced by
assigning `nullptr`, or an offset/length range (spec section 3). -/
inductive StringView where
  | null : StringView
  | slice (offset length : Nat) : StringView
deriving DecidableEq

/-- The bytes a `StringView` designates inside the given input buffer. -/
def StringView.bytes (sv : StringView) (input : List Char) : List Char :=
  match sv with
  | .null => []
  | .slice o l => (input.drop o).take l

/-- Modelled from the spec: `StringView::operator==(const char*)` — a
byte-for-byte, case-sensitive comparison of the viewed bytes against the
given name (the null view holds no bytes). -/
def svEqStr (input : List Char) (sv : StringView) (s : List Char) : Bool :=
  sv.bytes input == s

/-- The embedded `sjson::Parser`: the immutable input buffer plus the mutable
cursor state (`m_input` / `m_input_length` / `m_state`; the buffer length is
`input.length`). -/
structure Parser where
  input : List Char
  state : ParserState
deriving DecidableEq

/-- The `Parser(input, input_length)` constructor. -/
def makeParser (input : List Char) : Parser :=
  { input := input, state := ParserState.init input }

/-- `eof()`: `m_state.offset >= m_input_length`. -/
def Parser.eof (p : Parser) : Bool := p.input.length ≤ p.state.offset

/-- Fuel that dominates the number of cursor positions still ahead; used to
drive the embedded loops. -/
def Parser.fuel (p : Parser) : Nat := p.input.length + 1 - p.state.offset

/-- `save_state()`. -/
def Parser.save_state (p : Parser) : ParserState := p.state

/-- `restore_state(s)`. -/
def Parser.restore_state (p : Parser) (s : ParserState) : Parser :=
  { p with state := s }

/-- `set_error(error)`: records the kind together with the current cursor
line/column. -/
def Parser.set_error (p : Parser) (e : ErrorCode) : Parser :=
  { p with state :=
    { p.state with error := ⟨e, p.state.line, p.state.column⟩ } }

/-- `advance()`: no-op returning `false` at end of input; otherwise moves one
byte forward, reloads `symbol` (NUL when the new offset is past the end), and
updates the line/column bookkeeping (`uint32_t` arithmetic): landing on a
line feed increments `line` and resets `column` to 1, landing on any other
byte increments `column`. -/
def Parser.advance (p : Parser) : Bool × Parser :=
  if p.eof then (false, p)
  else if p.input.length ≤ p.state.offset + 1 then
    (true, { p with state :=
      { p.state with offset := p.state.offset + 1, symbol := Char.ofNat 0 } })
  else if p.input.getD (p.state.offset + 1) (Char.ofNat 0) = '\n' then
    (true, { p with state :=
      { p.state with offset := p.state.offset + 1,
                     symbol := p.input.getD (p.state.offset + 1) (Char.ofNat 0),
                     line := (p.state.line + 1) % U32, column := 1 } })
  else
    (true, { p with state :=
      { p.state with offset := p.state.offset + 1,
                     symbol := p.input.getD (p.state.offset + 1) (Char.ofNat 0),
                     column := (p.state.column + 1) % U32 } })

/-- The `while (!eof() && m_state.symbol != '\n') advance();` loop of the
line-comment branch of `read_comment()` (the terminating line feed is not
consumed). -/
def line_comment_loop : Nat → Parser → Parser
  | 0, p => p
  | fuel + 1, p =>
    if p.eof then p
    else if p.state.symbol = '\n' then p
    else line_comment_loop fuel (p.advance).2

/-- The scanning loop of the block-comment branch of `read_comment()`, with
its `wasAsterisk` flag; reaching end of input before the terminating `*/`
sets `InputTruncated`. -/
def block_comment_loop : Nat → Bool → Parser → Bool × Parser
  | 0, _, p => (false, p.set_error .InputTruncated)
  | fuel + 1, wasAsterisk, p =>
    if p.eof then (false, p.set_error .InputTruncated)
    else if p.state.symbol = '*' then block_comment_loop fuel true (p.advance).2
    else if wasAsterisk && p.state.symbol = '/' then (true, (p.advance).2)
    else block_comment_loop fuel false (p.advance).2

/-- `read_comment()`: entered with the cursor just past the introducing `/`;
dispatches on `/` (line comment), `*` (block comment, after an `advance()`)
or anything else (`CommentBeginsIncorrectly`). -/
def Parser.read_comment (p : Parser) : Bool × Parser :=
  if p.eof then (false, p.set_error .InputTruncated)
  else if p.state.symbol = '/' then (true, line_comment_loop p.fuel p)
  else if p.state.symbol = '*' then
    block_comment_loop ((p.advance).2).fuel false (p.advance).2
  else (false, p.set_error .CommentBeginsIncorrectly)

/-- The `while (true)` loop of `skip_comments_and_whitespace()`: whitespace
is consumed one byte at a time (with `continue`); a `/` is advanced past and
`read_comment()` is run, after which control falls through to `return true`
(there is no `continue` on this path in the source). -/
def skip_cw_loop : Nat → Parser → Bool × Parser
  | 0, p => (true, p)
  | fuel + 1, p =>
    if p.eof then (true, p)
    else if isspace p.state.symbol then skip_cw_loop fuel (p.advance).2
    else if p.state.symbol = '/' then
      match ((p.advance).2).read_comment with
      | (false, p2) => (false, p2)
      | (true, p2) => (true, p2)
    else (true, p)

/-- `skip_comments_and_whitespace()`. -/
def Parser.skip_comments_and_whitespace (p : Parser) : Bool × Parser :=
  skip_cw_loop p.fuel p

/-- `skip_comments_and_whitespace_fail_if_eof()`. -/
def Parser.skip_comments_and_whitespace_fail_if_eof (p : Parser) : Bool × Parser :=
  match p.skip_comments_and_whitespace with
  | (false, p1) => (false, p1)
  | (true, p1) =>
    if p1.eof then (false, p1.set_error .InputTruncated) else (true, p1)

/-- `read_symbol(expected, reason_if_other_found)`. -/
def Parser.read_symbol (p : Parser) (expected : Char) (reason : ErrorCode) : Bool × Parser :=
  match p.skip_comments_and_whitespace_fail_if_eof with
  | (false, p1) => (false, p1)
  | (true, p1) =>
    if p1.state.symbol = expected then (true, (p1.advance).2)
    else (false, p1.set_error reason)

/-- `read_equal_sign()`. -/
def Parser.read_equal_sign (p : Parser) : Bool × Parser :=
  p.read_symbol '=' .EqualSignExpected

/-- `read_opening_brace()`. -/
def Parser.read_opening_brace (p : Parser) : Bool × Parser :=
  p.read_symbol '{' .OpeningBraceExpected

/-- `read_closing_brace()`. -/
def Parser.read_closing_brace (p : Parser) : Bool × Parser :=
  p.read_symbol '}' .ClosingBraceExpected

/-- `read_opening_bracket()`. -/
def Parser.read_opening_bracket (p : Parser) : Bool × Parser :=
  p.read_symbol '[' .OpeningBracketExpected

/-- `read_closing_bracket()`. -/
def Parser.read_closing_bracket (p : Parser) : Bool × Parser :=
  p.read_symbol ']' .ClosingBracketExpected

/-- `read_comma()`. -/
def Parser.read_comma (p : Parser) : Bool × Parser :=
  p.read_symbol ',' .CommaExpected

/-- `object_begins()`. -/
def Parser.object_begins (p : Parser) : Bool × Parser := p.read_opening_brace

/-- `object_ends()`. -/
def Parser.object_ends (p : Parser) : Bool × Parser := p.read_closing_brace

/-- `array_begins()`. -/
def Parser.array_begins (p : Parser) : Bool × Parser := p.read_opening_bracket

/-- `array_ends()`. -/
def Parser.array_ends (p : Parser) : Bool × Parser := p.read_closing_bracket

/-- The scanning loop of `read_string()`: entered just past the opening
quotation mark; returns the `end_offset` of the success path (the offset of
the closing quotation mark minus one, in `size_t` arithmetic).  A backslash
makes the loop advance over the following byte as well; end of input before
a closing quotation mark sets `InputTruncated`. -/
def read_string_loop : Nat → Parser → Bool × Parser × Nat
  | 0, p => (false, p.set_error .InputTruncated, 0)
  | fuel + 1, p =>
    if p.eof then (false, p.set_error .InputTruncated, 0)
    else if p.state.symbol = '"' then (true, (p.advance).2, szSub p.state.offset 1)
    else if p.state.symbol = '\\' then
      read_string_loop fuel (((p.advance).2).advance).2
    else read_string_loop fuel (p.advance).2

/-- `read_string(value)`: out parameter threaded explicitly (untouched on
every failure path, assigned the slice between the quotation marks on
success). -/
def Parser.read_string (p : Parser) (value : StringView) : Bool × Parser × StringView :=
  match p.skip_comments_and_whitespace_fail_if_eof with
  | (false, p1) => (false, p1, value)
  | (true, p1) =>
    if p1.state.symbol ≠ '"' then (false, p1.set_error .QuotationMarkExpected, value)
    else
      let p2 := (p1.advance).2
      let start_offset := p2.state.offset
      match read_string_loop p2.fuel p2 with
      | (false, p3, _) => (false, p3, value)
      | (true, p3, end_offset) =>
        (true, p3, .slice start_offset ((szSub end_offset start_offset + 1) % SZ))

/-- The scanning loop of `read_unquoted_key()`: stops (successfully) at end
of input or just before `=` or after consuming one whitespace byte, in each
case yielding `end_offset = m_state.offset - 1` in `size_t` arithmetic;
fails on a quotation mark, or on `=` with an empty key. -/
def read_unquoted_key_loop : Nat → Nat → Parser → Bool × Parser × Nat
  | 0, _, p => (true, p, szSub p.state.offset 1)
  | fuel + 1, start_offset, p =>
    if p.eof then (true, p, szSub p.state.offset 1)
    else if p.state.symbol = '"' then
      (false, p.set_error .CannotUseQuotationMarkInUnquotedString, 0)
    else if p.state.symbol = '=' then
      if p.state.offset = start_offset then (false, p.set_error .KeyExpected, 0)
      else (true, p, szSub p.state.offset 1)
    else if isspace p.state.symbol then (true, (p.advance).2, szSub p.state.offset 1)
    else read_unquoted_key_loop fuel start_offset (p.advance).2

/-- `read_unquoted_key(value)`. -/
def Parser.read_unquoted_key (p : Parser) (value : StringView) : Bool × Parser × StringView :=
  if p.eof then (false, p.set_error .InputTruncated, value)
  else
    let start_offset := p.state.offset
    match read_unquoted_key_loop p.fuel start_offset p with
    | (false, p1, _) => (false, p1, value)
    | (true, p1, end_offset) =>
      (true, p1, .slice start_offset ((szSub end_offset start_offset + 1) % SZ))

/-- `read_key(having_name)`: skips whitespace/comments, saves the state,
reads a quoted or unquoted key token, and compares it byte-for-byte with
`having_name`; on mismatch restores the saved state and then sets
`IncorrectKey`. -/
def Parser.read_key (p : Parser) (having_name : List Char) : Bool × Parser :=
  match p.skip_comments_and_whitespace_fail_if_eof with
  | (false, p1) => (false, p1)
  | (true, p1) =>
    let start_of_key := p1.save_state
    match (if p1.state.symbol = '"' then p1.read_string .null else p1.read_unquoted_key .null) with
    | (false, p2, _) => (false, p2)
    | (true, p2, actual) =>
      if ¬ svEqStr p2.input actual having_name then
        (false, (p2.restore_state start_of_key).set_error .IncorrectKey)
      else (true, p2)

/-- `read_bool(value)`: matches the literal `true` or `false` byte by byte
via the `symbol == c && advance() && ...` chains of the source; any failure
along either chain restores the state saved at the start of the literal and
sets `TrueOrFalseExpected`. -/
def Parser.read_bool (p : Parser) (value : Bool) : Bool × Parser × Bool :=
  match p.skip_comments_and_whitespace_fail_if_eof with
  | (false, p1) => (false, p1, value)
  | (true, p1) =>
    let start_of_literal := p1.save_state
    let fail : Parser → Bool × Parser × Bool := fun q =>
      (false, (q.restore_state start_of_literal).set_error .TrueOrFalseExpected, value)
    if p1.state.symbol = 't' then
      let pa := (p1.advance).2
      if pa.state.symbol = 'r' then
        match pa.advance with
        | (false, pb) => fail pb
        | (true, pb) =>
          if pb.state.symbol = 'u' then
            match pb.advance with
            | (false, pc) => fail pc
            | (true, pc) =>
              if pc.state.symbol = 'e' then
                match pc.advance with
                | (false, pd) => fail pd
                | (true, pd) => (true, pd, true)
              else fail pc
          else fail pb
      else fail pa
    else if p1.state.symbol = 'f' then
      let pa := (p1.advance).2
      if pa.state.symbol = 'a' then
        match pa.advance with
        | (false, pb) => fail pb
        | (true, pb) =>
          if pb.state.symbol = 'l' then
            match pb.advance with
            | (false, pc) => fail pc
            | (true, pc) =>
              if pc.state.symbol = 's' then
                match pc.advance with
                | (false, pd) => fail pd
                | (true, pd) =>
                  if pd.state.symbol = 'e' then
                    match pd.advance with
                    | (false, pe) => fail pe
                    | (true, pe) => (true, pe, false)
                  else fail pd
              else fail pc
          else fail pb
      else fail pa
    else fail p1

/-- `MAX_NUMBER_LENGTH`. -/
def MAX_NUMBER_LENGTH : Nat := 64

/-- A `while (std::isdigit(m_state.symbol)) advance();` loop. -/
def digit_run_loop : Nat → Parser → Parser
  | 0, p => p
  | fuel + 1, p =>
    if isdigit p.state.symbol then digit_run_loop fuel (p.advance).2 else p

/-- The fraction and exponent parts of the `read_double()` numeric grammar
(source lines 459-483): an optional `.` followed by a digit run, then an
optional `e`/`E` followed by an optional sign and a digit run, where an
exponent marker followed by neither sign nor digit is `InvalidNumber`. -/
def Parser.scan_number_tail (q : Parser) : Bool × Parser :=
  let q0 :=
    if q.state.symbol = '.' then digit_run_loop ((q.advance).2).fuel (q.advance).2
    else q
  if q0.state.symbol = 'e' ∨ q0.state.symbol = 'E' then
    let q1 := (q0.advance).2
    if q1.state.symbol = '+' ∨ q1.state.symbol = '-' then
      (true, digit_run_loop ((q1.advance).2).fuel (q1.advance).2)
    else if ¬ isdigit q1.state.symbol then (false, q1.set_error .InvalidNumber)
    else (true, digit_run_loop q1.fuel q1)
  else (true, q0)

/-- The numeric-grammar scanning phase of `read_double()` (source lines
441-483): optional `-`; a single `0` or a non-empty digit run (else
`NumberExpected`); then the fraction/exponent tail. -/
def Parser.scan_number (p : Parser) : Bool × Parser :=
  let p0 := if p.state.symbol = '-' then (p.advance).2 else p
  if p0.state.symbol = '0' then Parser.scan_number_tail (p0.advance).2
  else if isdigit p0.state.symbol then
    Parser.scan_number_tail (digit_run_loop p0.fuel p0)
  else (false, p0.set_error .NumberExpected)

/-- The digits of the longest digit prefix of a byte list. -/
def takeDigits (l : List Char) : List Char := l.takeWhile fun c => isdigit c

/-- The natural number denoted by a list of decimal digit bytes. -/
def digitsToNat (ds : List Char) : Nat :=
  ds.foldl (fun a c => a * 10 + (c.toNat - 48)) 0

/-- Modelled from the spec: `std::strtod` (the "standard string-to-double
routine" of spec section 4.3) on the decimal forms the scanner can produce,
with exact rational arithmetic in place of IEEE rounding.  Returns the
converted value together with the number of bytes consumed: an optional
sign, then a digit sequence optionally containing one decimal point (at
least one digit in total, else nothing is consumed), then an optional
exponent part `e`/`E`, optional sign, one-or-more digits (an exponent part
without digits is not consumed). -/
def strtodModel (l : List Char) : Rat × Nat :=
  let sign : Rat × List Char × Nat :=
    match l with
    | '-' :: rest => (-1, rest, 1)
    | '+' :: rest => (1, rest, 1)
    | _ => (1, l, 0)
  let intDigits := takeDigits sign.2.1
  let l2 := sign.2.1.drop intDigits.length
  let frac : List Char × List Char × Nat :=
    match l2 with
    | '.' :: rest => (takeDigits rest, rest.drop (takeDigits rest).length, 1)
    | _ => ([], l2, 0)
  if intDigits.length = 0 ∧ frac.1.length = 0 then (0, 0)
  else
    let mantConsumed := sign.2.2 + intDigits.length + frac.2.2 + frac.1.length
    let mant : Rat :=
      sign.1 * ((digitsToNat intDigits : Rat) +
        (digitsToNat frac.1 : Rat) / ((10 : Rat) ^ frac.1.length))
    match frac.2.1 with
    | e :: rest =>
      if e = 'e' ∨ e = 'E' then
        let esign : Int × List Char × Nat :=
          match rest with
          | '+' :: r => (1, r, 1)
          | '-' :: r => (-1, r, 1)
          | _ => (1, rest, 0)
        let eDigits := takeDigits esign.2.1
        if eDigits.length = 0 then (mant, mantConsumed)
        else
          (mant * (10 : Rat) ^ (esign.1 * (digitsToNat eDigits : Int)),
           mantConsumed + 1 + esign.2.2 + eDigits.length)
      else (mant, mantConsumed)
    | [] => (mant, mantConsumed)

/-- `read_double(value)`: skip, scan the numeric grammar, then bound the
lexeme length by `MAX_NUMBER_LENGTH` (`length >= MAX_NUMBER_LENGTH` is
`NumberIsTooLong`) and convert the copied lexeme with `strtod`, requiring
the conversion to consume the whole lexeme (`NumberCouldNotBeConverted`
otherwise; the out parameter has already been assigned by then, exactly as
the C++ assigns `value` before the final check). -/
def Parser.read_double (p : Parser) (value : Rat) : Bool × Parser × Rat :=
  match p.skip_comments_and_whitespace_fail_if_eof with
  | (false, p1) => (false, p1, value)
  | (true, p1) =>
    let start_offset := p1.state.offset
    match p1.scan_number with
    | (false, p2) => (false, p2, value)
    | (true, p2) =>
      let end_offset := szSub p2.state.offset 1
      let length := (szSub end_offset start_offset + 1) % SZ
      if MAX_NUMBER_LENGTH ≤ length then (false, p2.set_error .NumberIsTooLong, value)
      else
        let lex := (p2.input.drop start_offset).take length
        let conv := strtodModel lex
        if conv.2 = length then (true, p2, conv.1)
        else (false, p2.set_error .NumberCouldNotBeConverted, conv.1)

/-- `read(key, StringView& value)`. -/
def Parser.read_keyed_string (p : Parser) (key : List Char) (value : StringView) :
    Bool × Parser × StringView :=
  match p.read_key key with
  | (false, p1) => (false, p1, value)
  | (true, p1) =>
    match p1.read_equal_sign with
    | (false, p2) => (false, p2, value)
    | (true, p2) => p2.read_string value

/-- `read(key, bool& value)`. -/
def Parser.read_keyed_bool (p : Parser) (key : List Char) (value : Bool) :
    Bool × Parser × Bool :=
  match p.read_key key with
  | (false, p1) => (false, p1, value)
  | (true, p1) =>
    match p1.read_equal_sign with
    | (false, p2) => (false, p2, value)
    | (true, p2) => p2.read_bool value

/-- `read(key, double& value)`. -/
def Parser.read_keyed_double (p : Parser) (key : List Char) (value : Rat) :
    Bool × Parser × Rat :=
  match p.read_key key with
  | (false, p1) => (false, p1, value)
  | (true, p1) =>
    match p1.read_equal_sign with
    | (false, p2) => (false, p2, value)
    | (true, p2) => p2.read_double value

/-- The `for` loop of `read(double* values, uint32_t num_elements)`, indexed
by the remaining iteration count `num_elements - i`: element `i` is read
into `values[i]`, and a comma is required after it exactly when
`i < num_elements - 1`. -/
def read_doubles_loop : Nat → Parser → List Rat → Nat → Nat → Bool × Parser × List Rat
  | 0, p, values, _, _ => (true, p, values)
  | gas + 1, p, values, i, n =>
    match p.read_double (values.getD i 0) with
    | (false, p1, v) => (false, p1, values.set i v)
    | (true, p1, v) =>
      let values1 := values.set i v
      if i < n - 1 then
        match p1.read_comma with
        | (false, p2) => (false, p2, values1)
        | (true, p2) => read_doubles_loop gas p2 values1 (i + 1) n
      else read_doubles_loop gas p1 values1 (i + 1) n

/-- `read(double* values, uint32_t num_elements)`: `num_elements == 0`
returns success immediately. -/
def Parser.read_doubles (p : Parser) (values : List Rat) (num_elements : Nat) :
    Bool × Parser × List Rat :=
  if num_elements = 0 then (true, p, values)
  else read_doubles_loop num_elements p values 0 num_elements

/-- `read(key, double* values, uint32_t num_elements)`. -/
def Parser.read_keyed_doubles (p : Parser) (key : List Char) (values : List Rat)
    (num_elements : Nat) : Bool × Parser × List Rat :=
  match p.read_key key with
  | (false, p1) => (false, p1, values)
  | (true, p1) =>
    match p1.read_equal_sign with
    | (false, p2) => (false, p2, values)
    | (true, p2) =>
      match p2.read_opening_bracket with
      | (false, p3) => (false, p3, values)
      | (true, p3) =>
        match p3.read_doubles values num_elements with
        | (false, p4, v4) => (false, p4, v4)
        | (true, p4, v4) =>
          match p4.read_closing_bracket with
          | (false, p5) => (false, p5, v4)
          | (true, p5) => (true, p5, v4)

/-- `try_read(key, StringView& value)`: save, attempt, and on failure
restore the saved state and assign `nullptr` to the out parameter. -/
def Parser.try_read_keyed_string (p : Parser) (key : List Char) (value : StringView) :
    Bool × Parser × StringView :=
  let s := p.save_state
  match p.read_keyed_string key value with
  | (false, p1, _) => (false, p1.restore_state s, StringView.null)
  | (true, p1, v1) => (true, p1, v1)

/-- The `for (i = 0; i < num_elements; ++i) values[i] = 0.0;` zero-filling
loop of `try_read(key, double*, uint32_t)`. -/
def zeroFill (values : List Rat) (num_elements : Nat) : List Rat :=
  (List.range num_elements).foldl (fun a i => a.set i 0) values

/-- `try_read(key, double* values, uint32_t num_elements)`: save, attempt,
and on failure restore the saved state and zero-fill all `num_elements`
output elements. -/
def Parser.try_read_keyed_doubles (p : Parser) (key : List Char) (values : List Rat)
    (num_elements : Nat) : Bool × Parser × List Rat :=
  let s := p.save_state
  match p.read_keyed_doubles key values num_elements with
  | (false, p1, v1) => (false, p1.restore_state s, zeroFill v1 num_elements)
  | (true, p1, v1) => (true, p1, v1)

/-- The cursor invariant of spec section 3: the `symbol` field mirrors the
input byte under the cursor whenever the cursor is inside the buffer. -/
def Parser.symbolOk (p : Parser) : Prop :=
  p.state.offset < p.input.length →
    p.state.symbol = p.input.getD p.state.offset (Char.ofNat 0)

/-- Claim-side characterisation of the `read_string` scan (claim C5's
wording): the relative position of the closing quotation mark in the bytes
following the opening one, where a backslash causes the following byte to be
skipped (so an escaped quotation mark does not terminate the scan), and
`none` means end of input is reached before a closing quotation mark. -/
def scanClose : List Char → Option Nat
  | [] => none
  | c :: rest =>
    if c = '"' then some 0
    else if c = '\\' then
      match rest with
      | [] => none
      | _ :: rest2 => (scanClose rest2).map (· + 2)
    else (scanClose rest).map (· + 1)

/-- The input bytes `//x\ny`. -/
def c1Input : List Char := ['/', '/', 'x', '\n', 'y']

/-- The input bytes `// cfg\nname = "hello"\ncount = 3.5\n` of the C2
scenario. -/
def c2Input : List Char :=
  ['/', '/', ' ', 'c', 'f', 'g', '\n',
   'n', 'a', 'm', 'e', ' ', '=', ' ', '"', 'h', 'e', 'l', 'l', 'o', '"', '\n',
   'c', 'o', 'u', 'n', 't', ' ', '=', ' ', '3', '.', '5', '\n']

/-- The C2 scenario after `object_begins()`. -/
def c2AfterBegin : Bool × Parser := (makeParser c2Input).object_begins

/-- The C2 scenario after `read("name", slice)`. -/
def c2AfterName : Bool × Parser × StringView :=
  c2AfterBegin.2.read_keyed_string ['n', 'a', 'm', 'e'] .null

/-- The C2 scenario after `read("count", d)`. -/
def c2AfterCount : Bool × Parser × Rat :=
  c2AfterName.2.1.read_keyed_double ['c', 'o', 'u', 'n', 't'] 0

/-- The input bytes `x=1`, whose first key token is `x`. -/
def c3Input : List Char := ['x', '=', '1']

/-- The input bytes `name = 3`. -/
def c4Input : List Char := ['n', 'a', 'm', 'e', ' ', '=', ' ', '3']

/-- The input bytes `a\nb`. -/
def c9Input : List Char := ['a', '\n', 'b']

/-- The input bytes quote, `a`, backslash, quote, `b`, quote. -/
def c5Input : List Char := ['"', 'a', '\\', '"', 'b', '"']

/-- An input of 64 digit bytes `1`. -/
def c6Input : List Char := List.replicate 64 '1'

section lemmas

attribute [local semireducible] Rat.add Rat.mul Rat.inv Rat.sub

theorem advance_input (p : Parser) : (p.advance).2.input = p.input := by
  simp only [Parser.advance]
  split
  · rfl
  · split
    · rfl
    · split <;> rfl

theorem advance_error (p : Parser) : (p.advance).2.state.error = p.state.error := by
  simp only [Parser.advance]
  split
  · rfl
  · split
    · rfl
    · split <;> rfl

theorem eof_false_iff (p : Parser) : p.eof = false ↔ p.state.offset < p.input.length := by
  simp [Parser.eof, Nat.not_le]

theorem eof_true_iff (p : Parser) : p.eof = true ↔ p.input.length ≤ p.state.offset := by
  simp [Parser.eof]

theorem advance_eof_noop (p : Parser) (h : p.eof = true) : p.advance = (false, p) := by
  simp only [Parser.advance, h, if_true]

theorem advance_pair (p : Parser) (h : p.eof = false) : p.advance = (true, (p.advance).2) := by
  simp only [Parser.advance, h, Bool.false_eq_true, if_false]
  split
  · rfl
  · split <;> rfl

theorem advance_offset (p : Parser) (h : p.eof = false) :
    (p.advance).2.state.offset = p.state.offset + 1 := by
  simp only [Parser.advance, h, Bool.false_eq_true, if_false]
  split
  · rfl
  · split <;> rfl

theorem advance_symbol_of_lt (p : Parser) (h : p.eof = false)
    (h2 : p.state.offset + 1 < p.input.length) :
    (p.advance).2.state.symbol = p.input.getD (p.state.offset + 1) (Char.ofNat 0) := by
  simp only [Parser.advance, h, Bool.false_eq_true, if_false]
  rw [if_neg (by omega : ¬ p.input.length ≤ p.state.offset + 1)]
  split <;> rfl

theorem advance_symbol_of_ge (p : Parser) (h : p.eof = false)
    (h2 : p.input.length ≤ p.state.offset + 1) :
    (p.advance).2.state.symbol = Char.ofNat 0 := by
  simp only [Parser.advance, h, Bool.false_eq_true, if_false]
  rw [if_pos h2]

theorem advance_onto_newline (p : Parser) (h : p.eof = false)
    (h2 : p.state.offset + 1 < p.input.length)
    (h3 : p.input.getD (p.state.offset + 1) (Char.ofNat 0) = '\n') :
    (p.advance).2.state.line = (p.state.line + 1) % U32 ∧
    (p.advance).2.state.column = 1 ∧
    (p.advance).2.state.symbol = '\n' := by
  simp only [Parser.advance, h, Bool.false_eq_true, if_false]
  rw [if_neg (by omega : ¬ p.input.length ≤ p.state.offset + 1), if_pos h3]
  exact ⟨rfl, rfl, h3⟩

theorem advance_not_newline (p : Parser) (h : p.eof = false)
    (h2 : p.state.offset + 1 < p.input.length)
    (h3 : p.input.getD (p.state.offset + 1) (Char.ofNat 0) ≠ '\n') :
    (p.advance).2.state.column = (p.state.column + 1) % U32 ∧
    (p.advance).2.state.line = p.state.line := by
  simp only [Parser.advance, h, Bool.false_eq_true, if_false]
  rw [if_neg (by omega : ¬ p.input.length ≤ p.state.offset + 1), if_neg h3]
  exact ⟨rfl, rfl⟩

theorem advance_symbolOk (p : Parser) : (p.advance).2.symbolOk := by
  intro hlt
  rw [advance_input p] at hlt
  rcases h : p.eof with _ | _
  · rw [advance_offset p h] at hlt
    rcases Nat.lt_or_ge (p.state.offset + 1) p.input.length with h2 | h2
    · rw [advance_symbol_of_lt p h h2, advance_input p, advance_offset p h]
    · omega
  · rw [advance_eof_noop p h] at hlt
    rw [eof_true_iff] at h
    dsimp only at hlt
    exact absurd hlt (by omega)

theorem set_error_input (p : Parser) (e : ErrorCode) : (p.set_error e).input = p.input := rfl

theorem set_error_offset (p : Parser) (e : ErrorCode) :
    (p.set_error e).state.offset = p.state.offset := rfl

theorem line_comment_loop_input (fuel : Nat) (p : Parser) :
    (line_comment_loop fuel p).input = p.input := by
  induction fuel generalizing p with
  | zero => rfl
  | succ n ih =>
    simp only [line_comment_loop]
    split
    · rfl
    · split
      · rfl
      · rw [ih, advance_input]

theorem block_comment_loop_input (fuel : Nat) (w : Bool) (p : Parser) :
    (block_comment_loop fuel w p).2.input = p.input := by
  induction fuel generalizing w p with
  | zero => rfl
  | succ n ih =>
    simp only [block_comment_loop]
    split
    · rfl
    · split
      · rw [ih, advance_input]
      · split
        · exact advance_input _
        · rw [ih, advance_input]

theorem read_comment_input (p : Parser) : (p.read_comment).2.input = p.input := by
  simp only [Parser.read_comment]
  split
  · rfl
  · split
    · exact line_comment_loop_input _ _
    · split
      · rw [block_comment_loop_input, advance_input]
      · rfl

theorem skip_cw_loop_input (fuel : Nat) (p : Parser) :
    (skip_cw_loop fuel p).2.input = p.input := by
  induction fuel generalizing p with
  | zero => rfl
  | succ n ih =>
    simp only [skip_cw_loop]
    split
    · rfl
    · split
      · rw [ih, advance_input]
      · split
        · split
          next p2 heq =>
            have h2 := read_comment_input (p.advance).2
            rw [heq] at h2
            rw [← advance_input p]
            exact h2
          next p2 heq =>
            have h2 := read_comment_input (p.advance).2
            rw [heq] at h2
            rw [← advance_input p]
            exact h2
        · rfl

theorem skip_cw_input (p : Parser) : (p.skip_comments_and_whitespace).2.input = p.input :=
  skip_cw_loop_input p.fuel p

theorem skip_fail_input (p : Parser) :
    (p.skip_comments_and_whitespace_fail_if_eof).2.input = p.input := by
  simp only [Parser.skip_comments_and_whitespace_fail_if_eof]
  split
  next p1 heq =>
    have h2 := skip_cw_input p
    rw [heq] at h2
    exact h2
  next p1 heq =>
    have h2 := skip_cw_input p
    rw [heq] at h2
    split
    · exact h2
    · exact h2

theorem skip_fail_ok (p p1 : Parser)
    (h : p.skip_comments_and_whitespace_fail_if_eof = (true, p1)) :
    p1.eof = false ∧ p1.input = p.input := by
  have hin := skip_fail_input p
  rw [h] at hin
  simp only [Parser.skip_comments_and_whitespace_fail_if_eof] at h
  split at h
  · exact absurd (congrArg Prod.fst h) (by simp)
  · split at h
    · exact absurd (congrArg Prod.fst h) (by simp)
    next hq =>
      obtain rfl : _ = p1 := congrArg Prod.snd h
      exact ⟨Bool.not_eq_true _ |>.mp hq, hin⟩

theorem SZ_pos : 0 < SZ := by norm_num [SZ]

theorem szSub_eq (a b : Nat) (hb : b ≤ a) (ha : a < SZ) : szSub a b = a - b := by
  have h1 : a % SZ = a := Nat.mod_eq_of_lt ha
  have h2 : b % SZ = b := Nat.mod_eq_of_lt (lt_of_le_of_lt hb ha)
  rw [szSub, h1, h2]
  have h3 : a + (SZ - b) = SZ + (a - b) := by omega
  rw [h3, Nat.add_mod_left]
  exact Nat.mod_eq_of_lt (by omega)

theorem szSub_slice_len (start k : Nat) (h1 : 1 ≤ start) (h2 : start + k < SZ) :
    (szSub (szSub (start + k) 1) start + 1) % SZ = k := by
  rw [szSub_eq (start + k) 1 (by omega) h2]
  rcases Nat.eq_zero_or_pos k with hk | hk
  · subst hk
    have ha : (start + 0 - 1) % SZ = start - 1 := by
      rw [Nat.add_zero]
      exact Nat.mod_eq_of_lt (by omega)
    have hb : start % SZ = start := Nat.mod_eq_of_lt (by omega)
    rw [szSub, ha, hb]
    have h3 : start - 1 + (SZ - start) = SZ - 1 := by omega
    rw [h3]
    have h4 := SZ_pos
    rw [Nat.mod_eq_of_lt (show SZ - 1 < SZ by omega)]
    rw [Nat.sub_add_cancel h4]
    exact Nat.mod_self SZ
  · rw [szSub_eq (start + k - 1) start (by omega) (by omega)]
    have h3 : start + k - 1 - start + 1 = k := by omega
    rw [h3]
    exact Nat.mod_eq_of_lt (by omega)

theorem foldl_set_length (l : List Nat) (acc : List Rat) :
    (l.foldl (fun a i => a.set i 0) acc).length = acc.length := by
  induction l generalizing acc with
  | nil => rfl
  | cons x xs ih =>
    simp only [List.foldl_cons]
    rw [ih]
    simp

theorem zeroFill_length (values : List Rat) (n : Nat) :
    (zeroFill values n).length = values.length :=
  foldl_set_length (List.range n) values

theorem zeroFill_succ (values : List Rat) (n : Nat) :
    zeroFill values (n + 1) = (zeroFill values n).set n 0 := by
  unfold zeroFill
  rw [List.range_succ, List.foldl_append]
  simp

theorem zeroFill_getElem (values : List Rat) (n i : Nat) (hi : i < n)
    (hlen : i < values.length) : (zeroFill values n)[i]? = some 0 := by
  induction n with
  | zero => omega
  | succ m ih =>
    rw [zeroFill_succ]
    rcases eq_or_ne m i with rfl | hne
    · rw [List.getElem?_set_self (by rw [zeroFill_length]; omega)]
    · rw [List.getElem?_set_ne hne]
      rcases eq_or_ne m i with rfl | hne2
      · omega
      · exact ih (by omega)

theorem zeroFill_eq_replicate (values : List Rat) (n : Nat) (h : values.length = n) :
    zeroFill values n = List.replicate n 0 := by
  apply List.ext_getElem?
  intro i
  by_cases hi : i < n
  · rw [zeroFill_getElem values n i hi (by omega), List.getElem?_replicate_of_lt hi]
  · rw [List.getElem?_eq_none (by rw [zeroFill_length]; omega),
        List.getElem?_eq_none (by rw [List.length_replicate]; omega)]

theorem read_doubles_loop_length (gas : Nat) (p : Parser) (values : List Rat) (i n : Nat) :
    (read_doubles_loop gas p values i n).2.2.length = values.length := by
  induction gas generalizing p values i with
  | zero => rfl
  | succ g ih =>
    simp only [read_doubles_loop]
    split
    · simp
    · split
      · split
        · simp
        · rw [ih]
          simp
      · rw [ih]
        simp

theorem read_doubles_length (p : Parser) (values : List Rat) (n : Nat) :
    (p.read_doubles values n).2.2.length = values.length := by
  simp only [Parser.read_doubles]
  split
  · rfl
  · exact read_doubles_loop_length n p values 0 n

theorem scanClose_cons (c : Char) (rest : List Char) :
    scanClose (c :: rest) =
      if c = '"' then some 0
      else if c = '\\' then
        match rest with
        | [] => none
        | _ :: rest2 => (scanClose rest2).map (· + 2)
      else (scanClose rest).map (· + 1) := by
  cases rest <;> rfl

theorem scanClose_lt_len_aux :
    ∀ (n : Nat) (l : List Char), l.length ≤ n → ∀ k, scanClose l = some k → k < l.length := by
  intro n
  induction n with
  | zero =>
    intro l hl k hk
    match l with
    | [] => simp [scanClose] at hk
    | c :: rest => simp at hl
  | succ m ih =>
    intro l hl k hk
    match l with
    | [] => simp [scanClose] at hk
    | c :: rest =>
      rw [scanClose_cons] at hk
      by_cases h1 : c = '"'
      · rw [if_pos h1] at hk
        obtain rfl : (0 : Nat) = k := Option.some.inj hk
        simp
      · rw [if_neg h1] at hk
        by_cases h2 : c = '\\'
        · rw [if_pos h2] at hk
          match rest with
          | [] => simp at hk
          | x :: rest2 =>
            simp only [Option.map_eq_some'] at hk
            obtain ⟨a, ha, hEq⟩ := hk
            have hlt := ih rest2 (by simp at hl; omega) a ha
            simp only [List.length_cons]
            omega
        · rw [if_neg h2] at hk
          simp only [Option.map_eq_some'] at hk
          obtain ⟨a, ha, hEq⟩ := hk
          have hlt := ih rest (by simp at hl; omega) a ha
          simp only [List.length_cons]
          omega

theorem scanClose_lt_length (l : List Char) (k : Nat) (h : scanClose l = some k) :
    k < l.length :=
  scanClose_lt_len_aux l.length l (Nat.le_refl _) k h

theorem read_string_loop_spec (fuel : Nat) (p : Parser)
    (hwf : p.symbolOk) (hfuel : p.input.length + 1 - p.state.offset ≤ fuel) :
    (∀ k, scanClose (p.input.drop p.state.offset) = some k →
        (read_string_loop fuel p).1 = true ∧
        (read_string_loop fuel p).2.2 = szSub (p.state.offset + k) 1 ∧
        (read_string_loop fuel p).2.1.state.offset = p.state.offset + k + 1 ∧
        (read_string_loop fuel p).2.1.input = p.input) ∧
    (scanClose (p.input.drop p.state.offset) = none →
        (read_string_loop fuel p).1 = false ∧
        (read_string_loop fuel p).2.1.state.error.error = ErrorCode.InputTruncated) := by
  induction fuel generalizing p with
  | zero =>
    have hdrop : p.input.drop p.state.offset = [] := List.drop_eq_nil_of_le (by omega)
    rw [hdrop]
    constructor
    · intro k hk
      simp [scanClose] at hk
    · intro _
      exact ⟨rfl, rfl⟩
  | succ n ih =>
    rcases heof : p.eof with _ | _
    · -- not at end of input
      have hlt : p.state.offset < p.input.length := (eof_false_iff p).mp heof
      have hsym := hwf hlt
      have hdrop : p.input.drop p.state.offset
          = p.state.symbol :: p.input.drop (p.state.offset + 1) := by
        rw [List.drop_eq_getElem_cons hlt]
        congr 1
        rw [hsym, List.getD_eq_getElem?_getD, List.getElem?_eq_getElem hlt]
        rfl
      rw [hdrop, scanClose_cons]
      by_cases hq : p.state.symbol = '"'
      · rw [if_pos hq]
        have hstep : read_string_loop (n + 1) p
            = (true, (p.advance).2, szSub p.state.offset 1) := by
          simp only [read_string_loop, heof, Bool.false_eq_true, if_false]
          rw [if_pos hq]
        constructor
        · intro k hk
          obtain rfl : (0 : Nat) = k := Option.some.inj hk
          rw [hstep]
          refine ⟨rfl, by rw [Nat.add_zero], ?_, advance_input p⟩
          rw [advance_offset p heof]
        · intro hk
          simp at hk
      · rw [if_neg hq]
        by_cases hb : p.state.symbol = '\\'
        · rw [if_pos hb]
          have hstep : read_string_loop (n + 1) p
              = read_string_loop n (((p.advance).2).advance).2 := by
            simp only [read_string_loop, heof, Bool.false_eq_true, if_false]
            rw [if_neg hq, if_pos hb]
          have hoff1 : (p.advance).2.state.offset = p.state.offset + 1 := advance_offset p heof
          have hin1 : (p.advance).2.input = p.input := advance_input p
          rcases hrest : p.input.drop (p.state.offset + 1) with _ | ⟨x, rest2⟩
          · have hlen1 : p.input.length ≤ p.state.offset + 1 := by
              rw [← List.drop_eq_nil_iff]
              exact hrest
            constructor
            · intro k hk
              simp at hk
            · intro _
              have heof1 : (p.advance).2.eof = true := by
                rw [eof_true_iff, hoff1, hin1]
                omega
              have hp2 : (((p.advance).2).advance).2 = (p.advance).2 := by
                rw [advance_eof_noop _ heof1]
              rw [hstep, hp2]
              have ihh := ih (p.advance).2 (advance_symbolOk p) (by rw [hoff1, hin1]; omega)
              have hdrop2 : (p.advance).2.input.drop (p.advance).2.state.offset = [] := by
                rw [hoff1, hin1]
                exact hrest
              refine ihh.2 ?_
              rw [hdrop2]
              rfl
          · have hlen1 : p.state.offset + 1 < p.input.length := by
              have h5 := congrArg List.length hrest
              simp only [List.length_drop, List.length_cons] at h5
              omega
            have heof1 : (p.advance).2.eof = false := by
              rw [eof_false_iff, hoff1, hin1]
              omega
            have hoff2 : (((p.advance).2).advance).2.state.offset = p.state.offset + 2 := by
              rw [advance_offset _ heof1, hoff1]
            have hin2 : (((p.advance).2).advance).2.input = p.input := by
              rw [advance_input, hin1]
            have hdrop2 : (((p.advance).2).advance).2.input.drop
                (((p.advance).2).advance).2.state.offset = rest2 := by
              rw [hoff2, hin2]
              have h6 : p.input.drop (p.state.offset + 2)
                  = (p.input.drop (p.state.offset + 1)).drop 1 := by
                rw [List.drop_drop]
              rw [h6, hrest]
              rfl
            have ihh := ih (((p.advance).2).advance).2 (advance_symbolOk _)
              (by rw [hoff2, hin2]; omega)
            rw [hdrop2] at ihh
            constructor
            · intro k hk
              rw [Option.map_eq_some'] at hk
              obtain ⟨a, ha, hEq⟩ := hk
              obtain ⟨i1, i2, i3, i4⟩ := ihh.1 a ha
              rw [hstep]
              refine ⟨i1, ?_, ?_, by rw [i4, hin2]⟩
              · rw [i2, hoff2]
                congr 1
                omega
              · rw [i3, hoff2]
                omega
            · intro hk
              rw [Option.map_eq_none'] at hk
              obtain ⟨j1, j2⟩ := ihh.2 hk
              rw [hstep]
              exact ⟨j1, j2⟩
        · rw [if_neg hb]
          have hstep : read_string_loop (n + 1) p = read_string_loop n (p.advance).2 := by
            simp only [read_string_loop, heof, Bool.false_eq_true, if_false]
            rw [if_neg hq, if_neg hb]
          have hoff1 : (p.advance).2.state.offset = p.state.offset + 1 := advance_offset p heof
          have hin1 : (p.advance).2.input = p.input := advance_input p
          have hdrop1 : (p.advance).2.input.drop (p.advance).2.state.offset
              = p.input.drop (p.state.offset + 1) := by
            rw [hoff1, hin1]
          have ihh := ih (p.advance).2 (advance_symbolOk p) (by rw [hoff1, hin1]; omega)
          rw [hdrop1] at ihh
          constructor
          · intro k hk
            rw [Option.map_eq_some'] at hk
            obtain ⟨a, ha, hEq⟩ := hk
            obtain ⟨i1, i2, i3, i4⟩ := ihh.1 a ha
            rw [hstep]
            refine ⟨i1, ?_, ?_, by rw [i4, hin1]⟩
            · rw [i2, hoff1]
              congr 1
              omega
            · rw [i3, hoff1]
              omega
          · intro hk
            rw [Option.map_eq_none'] at hk
            obtain ⟨j1, j2⟩ := ihh.2 hk
            rw [hstep]
            exact ⟨j1, j2⟩
    · -- at end of input
      have hlen : p.input.length ≤ p.state.offset := (eof_true_iff p).mp heof
      have hdrop : p.input.drop p.state.offset = [] := List.drop_eq_nil_of_le hlen
      rw [hdrop]
      constructor
      · intro k hk
        simp [scanClose] at hk
      · intro _
        simp only [read_string_loop, heof, if_true]
        exact ⟨trivial, rfl⟩

theorem read_string_of_loop_true (p p1 q : Parser) (v : StringView) (e : Nat)
    (h0 : p.skip_comments_and_whitespace_fail_if_eof = (true, p1))
    (hq : p1.state.symbol = '"')
    (hloop : read_string_loop ((p1.advance).2).fuel (p1.advance).2 = (true, q, e)) :
    p.read_string v = (true, q, StringView.slice (p1.advance).2.state.offset
        ((szSub e (p1.advance).2.state.offset + 1) % SZ)) := by
  simp only [Parser.read_string, h0]
  rw [if_neg (not_not_intro hq)]
  rw [hloop]

theorem read_string_of_loop_false (p p1 q : Parser) (v : StringView) (e : Nat)
    (h0 : p.skip_comments_and_whitespace_fail_if_eof = (true, p1))
    (hq : p1.state.symbol = '"')
    (hloop : read_string_loop ((p1.advance).2).fuel (p1.advance).2 = (false, q, e)) :
    p.read_string v = (false, q, v) := by
  simp only [Parser.read_string, h0]
  rw [if_neg (not_not_intro hq)]
  rw [hloop]

theorem read_keyed_doubles_length (p : Parser) (key : List Char) (values : List Rat) (n : Nat) :
    (p.read_keyed_doubles key values n).2.2.length = values.length := by
  simp only [Parser.read_keyed_doubles]
  split
  · rfl
  · split
    · rfl
    · split
      · rfl
      · split
        next p4 v4 heq =>
          have h2 := congrArg (fun r : Bool × Parser × List Rat => r.2.2.length) heq
          dsimp only at h2
          rw [← h2]
          exact read_doubles_length _ values n
        next p4 v4 heq =>
          have h2 := congrArg (fun r : Bool × Parser × List Rat => r.2.2.length) heq
          dsimp only at h2
          split
          · rw [← h2]
            exact read_doubles_length _ values n
          · rw [← h2]
            exact read_doubles_length _ values n

end lemmas

section claims

attribute [local semireducible] Rat.add Rat.mul Rat.inv Rat.sub

/-- C1: the claim states that one successful `skip_comments_and_whitespace()`
call consumes a whole maximal run of interleaved whitespace and well-formed
comments, leaving the cursor at end of input or on a byte that is neither
whitespace nor a comment start.  The code violates this: on the input
`//x\ny`, whose maximal skippable run from position 0 is the line comment
`//x` followed by the `\n`, a single call returns success with the cursor
still on the `\n` — a whitespace byte, not end of input — because the
source falls through to `return true` after reading one comment instead of
looping. -/
theorem claim_C1 :
    ((makeParser c1Input).skip_comments_and_whitespace).1 = true ∧
    ((makeParser c1Input).skip_comments_and_whitespace).2.state.offset = 3 ∧
    ((makeParser c1Input).skip_comments_and_whitespace).2.state.symbol = '\n' ∧
    isspace ((makeParser c1Input).skip_comments_and_whitespace).2.state.symbol = true ∧
    ((makeParser c1Input).skip_comments_and_whitespace).2.eof = false := by
  decide

/-- C2 (counterexample): on `// cfg\nname = "hello"\ncount = 3.5\n`,
`object_begins()` does fail and the two keyed reads do succeed, but the
cursor is NOT at end of input after the second read — it rests on the
trailing newline — so the claim's final conjunct (`eof()` true) is false. -/
theorem claim_C2_counterexample :
    c2AfterBegin.1 = false ∧
    c2AfterName.1 = true ∧
    c2AfterCount.1 = true ∧
    c2AfterCount.2.1.eof = false := by
  decide

/-- C2 (amended): on `// cfg\nname = "hello"\ncount = 3.5\n`,
`object_begins()` returns failure; then `read("name", slice)` and
`read("count", d)` both succeed, with `slice` covering exactly the 5 bytes
`hello` and `d = 3.5`; afterwards the cursor sits at offset 33 on the
trailing newline, so `eof()` is false (the trailing whitespace after the
number is not consumed by the read). -/
theorem claim_C2 :
    c2AfterBegin.1 = false ∧
    c2AfterName.1 = true ∧
    c2AfterName.2.2 = StringView.slice 15 5 ∧
    c2AfterName.2.2.bytes c2Input = ['h', 'e', 'l', 'l', 'o'] ∧
    c2AfterCount.1 = true ∧
    c2AfterCount.2.2 = 7 / 2 ∧
    c2AfterCount.2.1.state.offset = 33 ∧
    c2AfterCount.2.1.eof = false := by
  decide

/-- C3: a failing `try_read` restores the complete saved state (offset,
line, column, symbol and error all revert), and resets its output: the
string variant sets the output to the null "no value" sentinel, and the
fixed-size double-array variant sets all `n` output elements to `0.0`. -/
theorem claim_C3 (p : Parser) (key : List Char) (v : StringView) (vals : List Rat) (n : Nat) :
    (∀ p' out, p.try_read_keyed_string key v = (false, p', out) →
      p'.state = p.state ∧ out = StringView.null) ∧
    (vals.length = n →
      ∀ p' outs, p.try_read_keyed_doubles key vals n = (false, p', outs) →
        p'.state = p.state ∧ outs = List.replicate n 0) := by
  constructor
  · intro p' out h
    unfold Parser.try_read_keyed_string at h
    split at h
    next p1 v1 heq =>
      simp only [Prod.mk.injEq] at h
      obtain ⟨-, h2, h3⟩ := h
      subst h2
      subst h3
      exact ⟨rfl, rfl⟩
    next p1 v1 heq =>
      simp at h
  · intro hlen p' outs h
    unfold Parser.try_read_keyed_doubles at h
    split at h
    next p1 v1 heq =>
      simp only [Prod.mk.injEq] at h
      obtain ⟨-, h2, h3⟩ := h
      subst h2
      have hl : v1.length = vals.length := by
        have h4 := congrArg (fun r : Bool × Parser × List Rat => r.2.2.length) heq
        dsimp only at h4
        rw [← h4, read_keyed_doubles_length]
      refine ⟨rfl, ?_⟩
      rw [← h3]
      exact zeroFill_eq_replicate v1 n (by omega)
    next p1 v1 heq =>
      simp at h

/-- C3 witness: on `x=1`, both `try_read` variants fail for the key `k`; the
state is restored to the initial state and the outputs are reset (null
sentinel, zero-filled pair). -/
theorem claim_C3_witness :
    ((makeParser c3Input).try_read_keyed_string ['k'] .null).2.1.state
        = (makeParser c3Input).state ∧
    ((makeParser c3Input).try_read_keyed_string ['k'] .null).2.2 = StringView.null ∧
    ((makeParser c3Input).try_read_keyed_doubles ['k'] [1, 2] 2).2.1.state
        = (makeParser c3Input).state ∧
    ((makeParser c3Input).try_read_keyed_doubles ['k'] [1, 2] 2).2.2
        = List.replicate 2 0 := by
  have h := claim_C3 (makeParser c3Input) ['k'] StringView.null [1, 2] 2
  have h1 := h.1 ((makeParser c3Input).try_read_keyed_string ['k'] StringView.null).2.1
    ((makeParser c3Input).try_read_keyed_string ['k'] StringView.null).2.2 (by decide)
  have h2 := h.2 (by decide)
    ((makeParser c3Input).try_read_keyed_doubles ['k'] [1, 2] 2).2.1
    ((makeParser c3Input).try_read_keyed_doubles ['k'] [1, 2] 2).2.2 (by decide)
  exact ⟨h1.1, h1.2, h2.1, h2.2⟩

/-- C7: restoring a saved state is an exact structural overwrite — for any
parser `q` obtained from `p` by any sequence of operations (all of which
leave the input buffer untouched), `restore_state(save_state())` yields back
`p` in every field: offset, line, column, symbol and the embedded error. -/
theorem claim_C7 (p q : Parser) (h : q.input = p.input) :
    q.restore_state p.save_state = p := by
  cases p with
  | mk pin pst =>
    cases q with
    | mk qin qst =>
      simp only [Parser.restore_state, Parser.save_state]
      simp only at h
      subst h
      rfl

/-- C7 witness: restoring the initial saved state over a parser whose state
was later corrupted by `set_error` yields back the original parser. -/
theorem claim_C7_witness :
    ((makeParser c3Input).set_error .KeyExpected).restore_state
        (makeParser c3Input).save_state = makeParser c3Input :=
  claim_C7 (makeParser c3Input) ((makeParser c3Input).set_error .KeyExpected) rfl

/-- C8: for states whose offset is within the buffer (as every reachable
state is), `eof()` is true exactly when the offset equals the input length;
and `advance()` at end of input returns `false` and changes nothing. -/
theorem claim_C8 (p : Parser) :
    (p.state.offset ≤ p.input.length →
      (p.eof = true ↔ p.state.offset = p.input.length)) ∧
    (p.eof = true → p.advance = (false, p)) := by
  constructor
  · intro hle
    rw [eof_true_iff]
    omega
  · exact advance_eof_noop p

/-- C8 witness: on a 1-byte input the initial state is not at eof (offset 0,
length 1); on the empty input the initial state is at eof and `advance()` is
a failing no-op. -/
theorem claim_C8_witness :
    ((makeParser c3Input).eof = true ↔ (makeParser c3Input).state.offset = 3) ∧
    (makeParser []).advance = (false, makeParser []) :=
  ⟨(claim_C8 (makeParser c3Input)).1 (by decide), (claim_C8 (makeParser [])).2 (by decide)⟩

/-- C9: line/column bookkeeping keys on the byte the cursor lands on — an
`advance()` onto a `\n` increments `line` and sets `column` to 1 while the
cursor sits on the newline itself, and the subsequent `advance()` onto a
following non-newline byte sets `column` to 2, so the first content byte
after a newline is reported at column 2, never column 1. -/
theorem claim_C9 (p : Parser) (h : p.eof = false)
    (h2 : p.state.offset + 1 < p.input.length)
    (h3 : p.input.getD (p.state.offset + 1) (Char.ofNat 0) = '\n') :
    (p.advance).2.state.line = (p.state.line + 1) % U32 ∧
    (p.advance).2.state.column = 1 ∧
    (p.advance).2.state.symbol = '\n' ∧
    (p.state.offset + 2 < p.input.length →
      p.input.getD (p.state.offset + 2) (Char.ofNat 0) ≠ '\n' →
      ((p.advance).2.advance).2.state.column = 2) := by
  obtain ⟨hl, hc, hs⟩ := advance_onto_newline p h h2 h3
  refine ⟨hl, hc, hs, ?_⟩
  intro h4 h5
  have hoff : (p.advance).2.state.offset = p.state.offset + 1 := advance_offset p h
  have hin : (p.advance).2.input = p.input := advance_input p
  have heof : (p.advance).2.eof = false := by
    rw [eof_false_iff, hoff, hin]
    omega
  have h6 : (p.advance).2.state.offset + 1 < (p.advance).2.input.length := by
    rw [hoff, hin]
    omega
  have h7 : (p.advance).2.input.getD ((p.advance).2.state.offset + 1) (Char.ofNat 0) ≠ '\n' := by
    rw [hoff, hin]
    exact h5
  obtain ⟨hc2, -⟩ := advance_not_newline (p.advance).2 heof h6 h7
  rw [hc2, hc]
  norm_num [U32]

/-- C9 witness: on `a\nb`, advancing from `a` onto the newline gives line 2,
column 1 with the cursor on the newline, and advancing again onto `b` gives
column 2. -/
theorem claim_C9_witness :
    ((makeParser c9Input).advance).2.state.line = 2 ∧
    ((makeParser c9Input).advance).2.state.column = 1 ∧
    ((makeParser c9Input).advance).2.state.symbol = '\n' ∧
    (((makeParser c9Input).advance).2.advance).2.state.column = 2 := by
  have h := claim_C9 (makeParser c9Input) (by decide) (by decide) (by decide)
  refine ⟨?_, h.2.1, h.2.2.1, h.2.2.2 (by decide) (by decide)⟩
  rw [h.1]
  decide

/-- C4: when the next token after whitespace/comments is a syntactically
valid key (quoted or unquoted) whose bytes differ from the requested name,
`read_key(name)` returns failure, restores the cursor (offset, line, column,
symbol) to the state saved immediately before the key token was read, and
leaves the error field set to `IncorrectKey` recorded at that restored
position (the error is set after the restore, not reverted). -/
theorem claim_C4 (p p1 p2 : Parser) (name : List Char) (actual : StringView)
    (h0 : p.skip_comments_and_whitespace_fail_if_eof = (true, p1))
    (htok : (if p1.state.symbol = '"' then p1.read_string .null else p1.read_unquoted_key .null)
        = (true, p2, actual))
    (hneq : svEqStr p2.input actual name = false) :
    p.read_key name =
      (false, { p2 with state :=
        { p1.state with error := ⟨.IncorrectKey, p1.state.line, p1.state.column⟩ } }) := by
  simp only [Parser.read_key, h0]
  rw [htok]
  simp only [hneq, Bool.false_eq_true, not_false_iff, if_true]
  rfl

/-- C4 witness: `read_key("Name")` against `name = 3` fails with
`IncorrectKey`, the cursor restored to the start of the key token. -/
theorem claim_C4_witness :
    (makeParser c4Input).read_key ['N', 'a', 'm', 'e'] =
      (false, { input := c4Input,
                state := { offset := 0, line := 1, column := 1, symbol := 'n',
                           error := ⟨.IncorrectKey, 1, 1⟩ } }) := by
  have h := claim_C4 (makeParser c4Input) (makeParser c4Input)
      ⟨c4Input, ⟨5, 1, 6, '=', ⟨.None, 0, 0⟩⟩⟩ ['N', 'a', 'm', 'e'] (.slice 0 4)
      (by decide) (by decide) (by decide)
  exact h

set_option maxHeartbeats 1600000 in
/-- C10: `read_bool` requires no delimiter after the literal: whenever the
bytes at the cursor position after whitespace/comment skipping begin with
`true` (resp. `false`), `read_bool` succeeds, outputs `true` (resp.
`false`), and leaves the cursor on the byte immediately after the 4-byte
(resp. 5-byte) literal, even when further token characters follow. -/
theorem claim_C10 (p p1 : Parser) (v : Bool)
    (h0 : p.skip_comments_and_whitespace_fail_if_eof = (true, p1)) :
    (p1.state.symbol = 't' →
     p1.input.getD (p1.state.offset + 1) (Char.ofNat 0) = 'r' →
     p1.input.getD (p1.state.offset + 2) (Char.ofNat 0) = 'u' →
     p1.input.getD (p1.state.offset + 3) (Char.ofNat 0) = 'e' →
     p1.state.offset + 3 < p1.input.length →
     (p.read_bool v).1 = true ∧ (p.read_bool v).2.2 = true ∧
     (p.read_bool v).2.1.state.offset = p1.state.offset + 4) ∧
    (p1.state.symbol = 'f' →
     p1.input.getD (p1.state.offset + 1) (Char.ofNat 0) = 'a' →
     p1.input.getD (p1.state.offset + 2) (Char.ofNat 0) = 'l' →
     p1.input.getD (p1.state.offset + 3) (Char.ofNat 0) = 's' →
     p1.input.getD (p1.state.offset + 4) (Char.ofNat 0) = 'e' →
     p1.state.offset + 4 < p1.input.length →
     (p.read_bool v).1 = true ∧ (p.read_bool v).2.2 = false ∧
     (p.read_bool v).2.1.state.offset = p1.state.offset + 5) := by
  constructor
  · intro hs h1 h2 h3 hlen
    have he0 : p1.eof = false := by rw [eof_false_iff]; omega
    have hin1 : (p1.advance).2.input = p1.input := advance_input p1
    have hoff1 : (p1.advance).2.state.offset = p1.state.offset + 1 := advance_offset p1 he0
    have hsym1 : (p1.advance).2.state.symbol = 'r' := by
      rw [advance_symbol_of_lt p1 he0 (by omega)]
      exact h1
    have he1 : (p1.advance).2.eof = false := by rw [eof_false_iff, hoff1, hin1]; omega
    have hpair1 : (p1.advance).2.advance = (true, ((p1.advance).2.advance).2) :=
      advance_pair _ he1
    have hin2 : ((p1.advance).2.advance).2.input = p1.input := by
      rw [advance_input, hin1]
    have hoff2 : ((p1.advance).2.advance).2.state.offset = p1.state.offset + 2 := by
      rw [advance_offset _ he1, hoff1]
    have hsym2 : ((p1.advance).2.advance).2.state.symbol = 'u' := by
      rw [advance_symbol_of_lt _ he1 (by rw [hoff1, hin1]; omega), hin1, hoff1]
      exact h2
    have he2 : ((p1.advance).2.advance).2.eof = false := by
      rw [eof_false_iff, hoff2, hin2]; omega
    have hpair2 : ((p1.advance).2.advance).2.advance
        = (true, (((p1.advance).2.advance).2.advance).2) := advance_pair _ he2
    have hin3 : (((p1.advance).2.advance).2.advance).2.input = p1.input := by
      rw [advance_input, hin2]
    have hoff3 : (((p1.advance).2.advance).2.advance).2.state.offset = p1.state.offset + 3 := by
      rw [advance_offset _ he2, hoff2]
    have hsym3 : (((p1.advance).2.advance).2.advance).2.state.symbol = 'e' := by
      rw [advance_symbol_of_lt _ he2 (by rw [hoff2, hin2]; omega), hin2, hoff2]
      exact h3
    have he3 : (((p1.advance).2.advance).2.advance).2.eof = false := by
      rw [eof_false_iff, hoff3, hin3]; omega
    have hpair3 : (((p1.advance).2.advance).2.advance).2.advance
        = (true, ((((p1.advance).2.advance).2.advance).2.advance).2) := advance_pair _ he3
    have hoff4 : ((((p1.advance).2.advance).2.advance).2.advance).2.state.offset
        = p1.state.offset + 4 := by
      rw [advance_offset _ he3, hoff3]
    have hred : p.read_bool v
        = (true, ((((p1.advance).2.advance).2.advance).2.advance).2, true) := by
      simp only [Parser.read_bool, h0]
      rw [if_pos hs]
      rw [if_pos hsym1]
      rw [hpair1]
      dsimp only
      rw [if_pos hsym2]
      rw [hpair2]
      dsimp only
      rw [if_pos hsym3]
      rw [hpair3]
    rw [hred]
    exact ⟨rfl, rfl, hoff4⟩
  · intro hs h1 h2 h3 h4 hlen
    have hs' : ¬ p1.state.symbol = 't' := by rw [hs]; decide
    have he0 : p1.eof = false := by rw [eof_false_iff]; omega
    have hin1 : (p1.advance).2.input = p1.input := advance_input p1
    have hoff1 : (p1.advance).2.state.offset = p1.state.offset + 1 := advance_offset p1 he0
    have hsym1 : (p1.advance).2.state.symbol = 'a' := by
      rw [advance_symbol_of_lt p1 he0 (by omega)]
      exact h1
    have he1 : (p1.advance).2.eof = false := by rw [eof_false_iff, hoff1, hin1]; omega
    have hpair1 : (p1.advance).2.advance = (true, ((p1.advance).2.advance).2) :=
      advance_pair _ he1
    have hin2 : ((p1.advance).2.advance).2.input = p1.input := by
      rw [advance_input, hin1]
    have hoff2 : ((p1.advance).2.advance).2.state.offset = p1.state.offset + 2 := by
      rw [advance_offset _ he1, hoff1]
    have hsym2 : ((p1.advance).2.advance).2.state.symbol = 'l' := by
      rw [advance_symbol_of_lt _ he1 (by rw [hoff1, hin1]; omega), hin1, hoff1]
      exact h2
    have he2 : ((p1.advance).2.advance).2.eof = false := by
      rw [eof_false_iff, hoff2, hin2]; omega
    have hpair2 : ((p1.advance).2.advance).2.advance
        = (true, (((p1.advance).2.advance).2.advance).2) := advance_pair _ he2
    have hin3 : (((p1.advance).2.advance).2.advance).2.input = p1.input := by
      rw [advance_input, hin2]
    have hoff3 : (((p1.advance).2.advance).2.advance).2.state.offset = p1.state.offset + 3 := by
      rw [advance_offset _ he2, hoff2]
    have hsym3 : (((p1.advance).2.advance).2.advance).2.state.symbol = 's' := by
      rw [advance_symbol_of_lt _ he2 (by rw [hoff2, hin2]; omega), hin2, hoff2]
      exact h3
    have he3 : (((p1.advance).2.advance).2.advance).2.eof = false := by
      rw [eof_false_iff, hoff3, hin3]; omega
    have hpair3 : (((p1.advance).2.advance).2.advance).2.advance
        = (true, ((((p1.advance).2.advance).2.advance).2.advance).2) := advance_pair _ he3
    have hin4 : ((((p1.advance).2.advance).2.advance).2.advance).2.input = p1.input := by
      rw [advance_input, hin3]
    have hoff4 : ((((p1.advance).2.advance).2.advance).2.advance).2.state.offset
        = p1.state.offset + 4 := by
      rw [advance_offset _ he3, hoff3]
    have hsym4 : ((((p1.advance).2.advance).2.advance).2.advance).2.state.symbol = 'e' := by
      rw [advance_symbol_of_lt _ he3 (by rw [hoff3, hin3]; omega), hin3, hoff3]
      exact h4
    have he4 : ((((p1.advance).2.advance).2.advance).2.advance).2.eof = false := by
      rw [eof_false_iff, hoff4, hin4]; omega
    have hpair4 : ((((p1.advance).2.advance).2.advance).2.advance).2.advance
        = (true, (((((p1.advance).2.advance).2.advance).2.advance).2.advance).2) :=
      advance_pair _ he4
    have hoff5 : (((((p1.advance).2.advance).2.advance).2.advance).2.advance).2.state.offset
        = p1.state.offset + 5 := by
      rw [advance_offset _ he4, hoff4]
    have hred : p.read_bool v
        = (true, (((((p1.advance).2.advance).2.advance).2.advance).2.advance).2, false) := by
      simp only [Parser.read_bool, h0]
      rw [if_neg hs', if_pos hs]
      rw [if_pos hsym1]
      rw [hpair1]
      dsimp only
      rw [if_pos hsym2]
      rw [hpair2]
      dsimp only
      rw [if_pos hsym3]
      rw [hpair3]
      dsimp only
      rw [if_pos hsym4]
      rw [hpair4]
    rw [hred]
    refine ⟨rfl, rfl, ?_⟩
    exact hoff5

/-- C10 witness: on the input `truest`, `read_bool` succeeds with output
`true` and leaves the cursor at offset 4, on the `s` directly following the
literal. -/
theorem claim_C10_witness :
    ((makeParser ['t', 'r', 'u', 'e', 's', 't']).read_bool false).1 = true ∧
    ((makeParser ['t', 'r', 'u', 'e', 's', 't']).read_bool false).2.2 = true ∧
    ((makeParser ['t', 'r', 'u', 'e', 's', 't']).read_bool false).2.1.state.offset = 4 := by
  have h := (claim_C10 (makeParser ['t', 'r', 'u', 'e', 's', 't'])
      (makeParser ['t', 'r', 'u', 'e', 's', 't']) false (by decide)).1
      (by decide) (by decide) (by decide) (by decide) (by decide)
  exact h

/-- C5: when the next token is a double-quoted string, `read_string` returns
a slice covering exactly the bytes strictly between the opening and closing
quotation marks, unmodified (the slice is the raw input range): the closing
quotation mark is located by the scan in which each backslash causes the
following byte to be skipped (an escaped quotation mark does not terminate
the string), both bytes remaining in the slice; reaching end of input before
a closing quotation mark fails with the truncation error. -/
theorem claim_C5 (p p1 : Parser) (v : StringView)
    (h0 : p.skip_comments_and_whitespace_fail_if_eof = (true, p1))
    (hq : p1.state.symbol = '"')
    (hsz : p1.input.length < SZ) :
    (∀ k, scanClose (p1.input.drop (p1.state.offset + 1)) = some k →
        (p.read_string v).1 = true ∧
        (p.read_string v).2.2 = StringView.slice (p1.state.offset + 1) k ∧
        (p.read_string v).2.2.bytes p1.input
          = (p1.input.drop (p1.state.offset + 1)).take k ∧
        (p.read_string v).2.1.state.offset = p1.state.offset + 1 + k + 1) ∧
    (scanClose (p1.input.drop (p1.state.offset + 1)) = none →
        (p.read_string v).1 = false ∧
        (p.read_string v).2.1.state.error.error = ErrorCode.InputTruncated) := by
  obtain ⟨he, hin⟩ := skip_fail_ok p p1 h0
  have hoff1 : (p1.advance).2.state.offset = p1.state.offset + 1 := advance_offset p1 he
  have hin1 : (p1.advance).2.input = p1.input := advance_input p1
  have ihh := read_string_loop_spec ((p1.advance).2).fuel (p1.advance).2
    (advance_symbolOk p1) (Nat.le_refl _)
  rw [hoff1, hin1] at ihh
  constructor
  · intro k hk
    obtain ⟨i1, i2, i3, i4⟩ := ihh.1 k hk
    have hoflen : p1.state.offset < p1.input.length := (eof_false_iff p1).mp he
    have hklen : k < p1.input.length - (p1.state.offset + 1) := by
      have h5 := scanClose_lt_length _ k hk
      simpa [List.length_drop] using h5
    have hkSZ : p1.state.offset + 1 + k < SZ := by omega
    have hpair : read_string_loop ((p1.advance).2).fuel (p1.advance).2
        = (true, (read_string_loop ((p1.advance).2).fuel (p1.advance).2).2.1,
           szSub (p1.state.offset + 1 + k) 1) := by
      calc read_string_loop ((p1.advance).2).fuel (p1.advance).2
          = ((read_string_loop ((p1.advance).2).fuel (p1.advance).2).1,
             (read_string_loop ((p1.advance).2).fuel (p1.advance).2).2.1,
             (read_string_loop ((p1.advance).2).fuel (p1.advance).2).2.2) := rfl
        _ = _ := by rw [i1, i2]
    have hres := read_string_of_loop_true p p1
      (read_string_loop ((p1.advance).2).fuel (p1.advance).2).2.1 v
      (szSub (p1.state.offset + 1 + k) 1) h0 hq hpair
    rw [hoff1, szSub_slice_len (p1.state.offset + 1) k (by omega) hkSZ] at hres
    rw [hres]
    exact ⟨rfl, rfl, rfl, i3⟩
  · intro hk
    obtain ⟨j1, j2⟩ := ihh.2 hk
    have hpairF : read_string_loop ((p1.advance).2).fuel (p1.advance).2
        = (false, (read_string_loop ((p1.advance).2).fuel (p1.advance).2).2.1,
           (read_string_loop ((p1.advance).2).fuel (p1.advance).2).2.2) := by
      calc read_string_loop ((p1.advance).2).fuel (p1.advance).2
          = ((read_string_loop ((p1.advance).2).fuel (p1.advance).2).1,
             (read_string_loop ((p1.advance).2).fuel (p1.advance).2).2.1,
             (read_string_loop ((p1.advance).2).fuel (p1.advance).2).2.2) := rfl
        _ = _ := by rw [j1]
    have hres := read_string_of_loop_false p p1
      (read_string_loop ((p1.advance).2).fuel (p1.advance).2).2.1 v
      (read_string_loop ((p1.advance).2).fuel (p1.advance).2).2.2 h0 hq hpairF
    rw [hres]
    exact ⟨rfl, j2⟩

/-- C5 witness: `read_string` on quote, `a`, backslash, quote, `b`, quote
returns the 4 raw bytes `a`, backslash, quote, `b` (no unescaping), with the
cursor one past the closing quotation mark. -/
theorem claim_C5_witness :
    ((makeParser c5Input).read_string .null).1 = true ∧
    ((makeParser c5Input).read_string .null).2.2 = StringView.slice 1 4 ∧
    ((makeParser c5Input).read_string .null).2.2.bytes c5Input = ['a', '\\', '"', 'b'] ∧
    ((makeParser c5Input).read_string .null).2.1.state.offset = 6 := by
  have h := (claim_C5 (makeParser c5Input) (makeParser c5Input) .null
      (by decide) (by decide) (by decide)).1 4 (by decide)
  exact ⟨h.1, h.2.1, h.2.2.1, h.2.2.2⟩

/-- C6: the numeric lexeme matched by `read_double` is bounded to at most 63
bytes: a lexeme of 64 bytes or longer fails with `NumberIsTooLong` before
any conversion, and a lexeme of 63 bytes or shorter is handed to the
string-to-double conversion (whose whole-lexeme-consumption check then
decides success). -/
theorem claim_C6 (p p1 p2 : Parser) (v : Rat)
    (h0 : p.skip_comments_and_whitespace_fail_if_eof = (true, p1))
    (hscan : p1.scan_number = (true, p2))
    (hlt : p1.state.offset < p2.state.offset)
    (hsz : p2.state.offset < SZ) :
    (MAX_NUMBER_LENGTH ≤ p2.state.offset - p1.state.offset →
      p.read_double v = (false, p2.set_error .NumberIsTooLong, v)) ∧
    (p2.state.offset - p1.state.offset < MAX_NUMBER_LENGTH →
      p.read_double v =
        (if (strtodModel ((p2.input.drop p1.state.offset).take
              (p2.state.offset - p1.state.offset))).2
            = p2.state.offset - p1.state.offset then
          (true, p2, (strtodModel ((p2.input.drop p1.state.offset).take
              (p2.state.offset - p1.state.offset))).1)
        else
          (false, p2.set_error .NumberCouldNotBeConverted,
           (strtodModel ((p2.input.drop p1.state.offset).take
              (p2.state.offset - p1.state.offset))).1))) := by
  have hlen_eq : (szSub (szSub p2.state.offset 1) p1.state.offset + 1) % SZ
      = p2.state.offset - p1.state.offset := by
    rw [szSub_eq p2.state.offset 1 (by omega) hsz,
        szSub_eq (p2.state.offset - 1) p1.state.offset (by omega) (by omega)]
    rw [Nat.mod_eq_of_lt (by omega)]
    omega
  constructor
  · intro hbig
    simp only [Parser.read_double, h0]
    rw [hscan]
    dsimp only
    rw [hlen_eq]
    rw [if_pos hbig]
  · intro hsmall
    simp only [Parser.read_double, h0]
    rw [hscan]
    dsimp only
    rw [hlen_eq]
    rw [if_neg (by omega : ¬ MAX_NUMBER_LENGTH ≤ p2.state.offset - p1.state.offset)]

/-- C6 witness: on an input of 64 digit bytes the matched lexeme is 64 bytes
long and `read_double` fails with `NumberIsTooLong`. -/
theorem claim_C6_witness :
    ((makeParser c6Input).read_double 0).1 = false ∧
    ((makeParser c6Input).read_double 0).2.1.state.error.error
      = ErrorCode.NumberIsTooLong := by
  have h := (claim_C6 (makeParser c6Input) (makeParser c6Input)
      ⟨c6Input, ⟨64, 1, 64, Char.ofNat 0, ⟨.None, 0, 0⟩⟩⟩ 0
      (by decide) (by decide) (by decide) (by decide)).1 (by decide)
  rw [h]
  exact ⟨rfl, rfl⟩

end claims

end sjson
